import Mathlib

/-!
Shallow embedding of the news aggregation pipeline of RAP_HeadLine_HQ
(`src/crawlers.py`, `src/pipeline.py`, `src/config.py`).

Python strings are modelled as `List Char` (`Str`), floats whose values are
always small multiples of `1/2` as `ℚ`, dicts as association lists, and the
timestamp parser `datetime.fromisoformat` as an explicit parameter
`parse : Str → Option Int` mapping a timestamp string to a time in seconds
(`none` models a parse exception).  A Python function that can raise an
uncaught exception is modelled with an `Option` result.
-/

abbrev Str := List Char

/-- Python `str.lower()` (ASCII case folding, as exercised by the code). -/
def lowerStr (s : Str) : Str := s.map Char.toLower

/-- Python `str.strip()`: drop leading and trailing whitespace. -/
def trimStr (s : Str) : Str :=
  ((s.dropWhile Char.isWhitespace).reverse.dropWhile Char.isWhitespace).reverse

/-- Python `pat in s`: case-sensitive substring test. -/
def containsSub (s pat : Str) : Bool :=
  match s with
  | [] => pat.isEmpty
  | c :: rest => pat.isPrefixOf (c :: rest) || containsSub rest pat

/-- Helper for `pySplit`: accumulates the current word (reversed). -/
def pySplitAux : Str → Str → List Str
  | [], acc => if acc.isEmpty then [] else [acc.reverse]
  | c :: rest, acc =>
    if c.isWhitespace then
      if acc.isEmpty then pySplitAux rest [] else acc.reverse :: pySplitAux rest []
    else pySplitAux rest (c :: acc)

/-- Python `str.split()` with no argument: split on whitespace runs,
discarding empty tokens. -/
def pySplit (s : Str) : List Str := pySplitAux s []

/-- Python `str.replace(c, rep)` for a single-character pattern. -/
def pyReplaceChar (c : Char) (rep : Str) : Str → Str
  | [] => []
  | x :: xs => if x = c then rep ++ pyReplaceChar c rep xs else x :: pyReplaceChar c rep xs

/-- The `timestamp_str.replace('Z', '+00:00')` normalization applied before
every `datetime.fromisoformat` call in `pipeline.py`. -/
def isoFix (s : Str) : Str := pyReplaceChar 'Z' "+00:00".data s

/-- Python `<=` on strings: lexicographic by code point. -/
def strLe : Str → Str → Bool
  | [], _ => true
  | _ :: _, [] => false
  | a :: as, b :: bs => if a < b then true else if b < a then false else strLe as bs

/-- A news item record as produced by the crawlers (`title`, `url`,
`snippet`, `source`, `timestamp`, `impact_score` keys of the result dicts). -/
structure Item where
  title : Str := []
  url : Str := []
  snippet : Str := []
  source : Str := []
  timestamp : Str := []
  impact_score : ℚ := 0
deriving DecidableEq

/-! ### Impact scorer (`AdvancedNewsCrawler._calculate_enhanced_impact`) -/

/-- `impact_keywords['critical']` in `crawlers.py`. -/
def critical_keywords : List Str :=
  ["bankruptcy".data, "lawsuit".data, "investigation".data, "scandal".data,
   "fraud".data, "fired".data, "resignation".data]

/-- `impact_keywords['high']` in `crawlers.py`. -/
def high_keywords : List Str :=
  ["acquisition".data, "merger".data, "ipo".data, "earnings beat".data,
   "breakthrough".data, "partnership".data]

/-- `impact_keywords['medium']` in `crawlers.py`. -/
def medium_keywords : List Str :=
  ["earnings".data, "revenue".data, "quarterly".data, "investment".data,
   "expansion".data, "launch".data]

/-- `impact_keywords['low']` in `crawlers.py`. -/
def low_keywords : List Str :=
  ["update".data, "statement".data, "comment".data, "meeting".data, "interview".data]

/-- Total increment contributed by one keyword bucket: each keyword of the
bucket that occurs as a substring of `text` adds `inc`. -/
def keywordBonus (text : Str) (kws : List Str) (inc : ℚ) : ℚ :=
  ((kws.filter fun k => containsSub text k).length : ℚ) * inc

/-- `AdvancedNewsCrawler._calculate_enhanced_impact(title, snippet, query)`:
base 5.0; +4.0 / +2.5 / +1.5 / +0.5 per matched critical / high / medium /
low keyword over `(title + " " + snippet).lower()`; +1.0 if `query` contains
`today` or `latest`; −0.5 if `len(snippet) < 50`; capped above at 10. -/
def calculate_enhanced_impact (title snippet query : Str) : ℚ :=
  let text := lowerStr (title ++ [' '] ++ snippet)
  let s1 := 5 + keywordBonus text critical_keywords 4
    + keywordBonus text high_keywords (5/2)
    + keywordBonus text medium_keywords (3/2)
    + keywordBonus text low_keywords (1/2)
  let s2 := if containsSub query "today".data || containsSub query "latest".data
    then s1 + 1 else s1
  let s3 := if snippet.length < 50 then s2 - 1/2 else s2
  min s3 10

/-- Modelled from the spec wording of the impact scorer (claim C1): the same
additive keyword-bucket sum, with the final value clamped to the interval
`[0, 10]` on both sides. -/
def impact_score_spec (title snippet query : Str) : ℚ :=
  let text := lowerStr (title ++ [' '] ++ snippet)
  let s1 := 5 + keywordBonus text critical_keywords 4
    + keywordBonus text high_keywords (5/2)
    + keywordBonus text medium_keywords (3/2)
    + keywordBonus text low_keywords (1/2)
  let s2 := if containsSub query "today".data || containsSub query "latest".data
    then s1 + 1 else s1
  let s3 := if snippet.length < 50 then s2 - 1/2 else s2
  max 0 (min s3 10)

/-! ### Advanced deduplication (`AdvancedNewsCrawler._advanced_deduplication`) -/

/-- `len(set(a) & set(b))` on token lists: the number of distinct tokens of
`a` that also occur in `b`. -/
def interCard (a b : List Str) : Nat :=
  ((a.dedup).filter fun w => b.contains w).length

/-- The title-similarity expression of `_advanced_deduplication`:
`len(set(t1.split()) & set(t2.split())) / max(len(t1.split()), len(t2.split()))`.
`none` models the `ZeroDivisionError` raised when both token lists are empty. -/
def similarity (t1 t2 : Str) : Option ℚ :=
  let ta := pySplit t1
  let tb := pySplit t2
  let d := max ta.length tb.length
  if d = 0 then none else some ((interCard ta tb : ℚ) / (d : ℚ))

/-- Modelled from the spec wording of the deduplicator (claim C2): same
intersection numerator, but divided by the size of the larger of the two
token *sets* (distinct tokens) rather than of the token lists. -/
def similarity_spec (t1 t2 : Str) : Option ℚ :=
  let ta := pySplit t1
  let tb := pySplit t2
  let d := max ta.dedup.length tb.dedup.length
  if d = 0 then none else some ((interCard ta tb : ℚ) / (d : ℚ))

/-- `result.get('title', '').lower().strip()` as stored in `seen_titles`. -/
def normTitle (t : Str) : Str := trimStr (lowerStr t)

/-- The inner `for seen_title in seen_titles` loop: `some true` if a stored
title has similarity above 0.7 (the loop breaks), `some false` if none has,
`none` if a similarity computation raises `ZeroDivisionError`. -/
def anySimilar (title : Str) : List Str → Option Bool
  | [] => some false
  | t :: rest =>
    match similarity title t with
    | none => none
    | some q => if 7/10 < q then some true else anySimilar title rest

/-- Main loop of `_advanced_deduplication` with the `seen_urls` and
`seen_titles` state made explicit.  Skips an item whose exact `url` was
already accepted; then drops the item if a previously accepted title is
similar; otherwise accepts it and records its url and normalized title. -/
def advDedupGo (urls titles : List Str) : List Item → Option (List Item)
  | [] => some []
  | r :: rest =>
    if r.url ∈ urls then advDedupGo urls titles rest
    else
      match anySimilar (normTitle r.title) titles with
      | none => none
      | some true => advDedupGo urls titles rest
      | some false =>
        (advDedupGo (r.url :: urls) (normTitle r.title :: titles) rest).map (r :: ·)

/-- `AdvancedNewsCrawler._advanced_deduplication`; `none` models an escaped
`ZeroDivisionError`. -/
def advanced_deduplication (results : List Item) : Option (List Item) :=
  advDedupGo [] [] results

/-! ### Basic deduplication and time filter (`NewsAggregator`) -/

/-- Main loop of `NewsAggregator._deduplicate`: exact-match elimination on
raw `url` and on `title.lower()`. -/
def basicDedupGo (urls titles : List Str) : List Item → List Item
  | [] => []
  | r :: rest =>
    if r.url ∉ urls ∧ lowerStr r.title ∉ titles then
      r :: basicDedupGo (r.url :: urls) (lowerStr r.title :: titles) rest
    else basicDedupGo urls titles rest

/-- `NewsAggregator._deduplicate`. -/
def deduplicate_basic (results : List Item) : List Item := basicDedupGo [] [] results

/-- `NewsAggregator._filter_by_time(results, cutoff_time)`: keep an item if
its timestamp is empty, keep it if the timestamp parses to a time `≥ cutoff`,
and on a parse failure substitute `datetime.now()` (i.e. `now`) for the
timestamp before the comparison. -/
def filter_by_time (parse : Str → Option Int) (now cutoff : Int)
    (results : List Item) : List Item :=
  results.filter fun r =>
    if r.timestamp.isEmpty then true
    else
      match parse (isoFix r.timestamp) with
      | some t => decide (cutoff ≤ t)
      | none => decide (cutoff ≤ now)

/-- Python `dict.get(key, default)` over an association list. -/
def pyGetNat (m : List (Str × Nat)) (k : Str) (d : Nat) : Nat :=
  (m.lookup k).getD d

/-- `time_mapping` of `NewsPipeline.process_news_query` (no `"1 week"` key). -/
def basic_time_mapping : List (Str × Nat) :=
  [("1 hour".data, 1), ("6 hours".data, 6), ("24 hours".data, 24)]

/-- `time_mapping` of `EnterpriseNewsPipeline._enterprise_filter_news`. -/
def enterprise_time_mapping : List (Str × Nat) :=
  [("1 hour".data, 1), ("6 hours".data, 6), ("24 hours".data, 24), ("1 week".data, 168)]

/-- `time_mapping.get(time_range, 24)` in the basic pipeline. -/
def basic_hours (time_range : Str) : Nat := pyGetNat basic_time_mapping time_range 24

/-- `time_mapping.get(time_range, 24)` in the enterprise pipeline. -/
def enterprise_hours (time_range : Str) : Nat :=
  pyGetNat enterprise_time_mapping time_range 24

/-! ### Ranking (`NewsAggregator.fetch_all_news`) -/

/-- Comparison underlying `sorted(key=lambda x: (impact_score, timestamp),
reverse=True)`: `a` may precede `b` iff `b`'s key tuple is lexicographically
at most `a`'s (timestamps compared as strings). -/
def basicKeyLe (a b : Item) : Bool :=
  decide (b.impact_score < a.impact_score) ||
    (decide (b.impact_score = a.impact_score) && strLe b.timestamp a.timestamp)

/-- The `asyncio.gather(..., return_exceptions=True)` post-processing of
`fetch_all_news`: concatenate the adapter results that are lists, discard
the ones that are exceptions. -/
def collectResults (rs : List (Except Str (List Item))) : List Item :=
  rs.foldl (fun acc r => match r with | Except.ok l => acc ++ l | Except.error _ => acc) []

/-- `NewsAggregator.fetch_all_news` given the gathered per-crawler outcomes:
merge, deduplicate, time-filter with `cutoff = now − hours·3600` seconds,
sort descending by `(impact_score, timestamp)` and keep the top 10. -/
def fetch_all_news (parse : Str → Option Int) (now : Int) (hours : Nat)
    (crawler_results : List (Except Str (List Item))) : List Item :=
  let all_results := collectResults crawler_results
  let unique := deduplicate_basic all_results
  let cutoff := now - (hours : Int) * 3600
  let filtered := filter_by_time parse now cutoff unique
  (filtered.mergeSort basicKeyLe).take 10

/-- `DuckDuckGoCrawler.fetch`: the whole body is wrapped in
`try/except: return []`, so a transport error yields the empty list.  The
scraping itself is abstracted into the incoming transport outcome. -/
def ddg_fetch (transport : Except Str (List Item)) : List Item :=
  match transport with
  | Except.ok rs => rs
  | Except.error _ => []

/-! ### Basic pipeline outcome (`NewsPipeline.process_news_query`) -/

/-- The three distinct return shapes of `process_news_query`: the
"no recent news found" message, the "none meet your impact threshold"
message (which reports how many items were found), and a styled summary of
the surviving items. -/
inductive QueryOutcome where
  | noResults
  | belowThreshold (found : Nat)
  | summaryOf (items : List Item)
deriving DecidableEq

/-- Steps 1–3 of `NewsPipeline.process_news_query`, given the items returned
by the aggregator: branch on emptiness, filter by
`impact_score >= impact_threshold`, branch on emptiness again. -/
def process_news_query (news_items : List Item) (impact_threshold : ℚ) : QueryOutcome :=
  if news_items.isEmpty then QueryOutcome.noResults
  else
    let filtered := news_items.filter fun i => decide (impact_threshold ≤ i.impact_score)
    if filtered.isEmpty then QueryOutcome.belowThreshold news_items.length
    else QueryOutcome.summaryOf filtered

/-! ### Enterprise filtering (`EnterpriseNewsPipeline._enterprise_filter_news`) -/

/-- The trusted-source allow-list of `_enterprise_filter_news`. -/
def trusted_sources : List Str :=
  ["reuters".data, "bloomberg".data, "cnbc".data, "ap".data, "wsj".data]

/-- The content-quality and URL checks: title at least 10 characters, no
`error` in the lowered title, non-empty url starting with `http`. -/
def qualityKeep (item : Item) : Bool :=
  !(decide (item.title.length < 10) || containsSub (lowerStr item.title) "error".data) &&
    (!item.url.isEmpty && ("http".data.isPrefixOf item.url))

/-- The per-item `continue` chain of `_enterprise_filter_news`: drop below
the impact threshold; drop when a parseable timestamp is older than
`cutoff` (parse failures are tolerated); then apply `qualityKeep`. -/
def enterpriseKeep (parse : Str → Option Int) (cutoff : Int) (thr : ℚ)
    (item : Item) : Bool :=
  if decide (item.impact_score < thr) then false
  else if item.timestamp.isEmpty then qualityKeep item
  else
    match parse (isoFix item.timestamp) with
    | some t => if decide (t < cutoff) then false else qualityKeep item
    | none => qualityKeep item

/-- The ranking-time boosts of `_enterprise_filter_news`: +1.0 (capped at
10) when a trusted source name occurs in `source.lower()`, then +0.5
(capped at 10) when the timestamp parses and the item is less than one hour
old. -/
def applyBoosts (parse : Str → Option Int) (now : Int) (item : Item) : Item :=
  let s1 := if trusted_sources.any (fun t => containsSub (lowerStr item.source) t)
    then min (item.impact_score + 1) 10 else item.impact_score
  let s2 :=
    match parse (isoFix item.timestamp) with
    | some t => if decide (now - t < 3600) then min (s1 + 1/2) 10 else s1
    | none => s1
  { item with impact_score := s2 }

/-- Comparison underlying `sorted(key=lambda x: x['impact_score'],
reverse=True)`: impact score only, no timestamp tiebreak. -/
def entKeyLe (a b : Item) : Bool := decide (b.impact_score ≤ a.impact_score)

/-- `EnterpriseNewsPipeline._enterprise_filter_news`. -/
def enterprise_filter_news (parse : Str → Option Int) (now : Int)
    (time_range : Str) (impact_threshold : ℚ) (news_items : List Item) : List Item :=
  let hours := enterprise_hours time_range
  let cutoff := now - (hours : Int) * 3600
  let filtered := news_items.filter (enterpriseKeep parse cutoff impact_threshold)
  let boosted := filtered.map (applyBoosts parse now)
  (boosted.mergeSort entKeyLe).take 12

/-! ### RSS feeds state (`RSSCrawler.fetch` and `CrawlerConfig`) -/

/-- The Google News RSS url appended by `RSSCrawler.fetch`. -/
def google_news_rss (company : Str) : Str :=
  "https://news.google.com/rss/search?q=".data ++ company ++
    "&hl=en-US&gl=US&ceid=US:en".data

/-- `CrawlerConfig.__post_init__`: the default `rss_feeds` dict. -/
def default_rss_feeds : List (Str × List Str) :=
  [("tesla".data, ["https://www.tesla.com/blog/rss".data]),
   ("apple".data, ["https://www.apple.com/newsroom/rss-feed.rss".data]),
   ("microsoft".data, ["https://blogs.microsoft.com/feed/".data]),
   ("google".data, ["https://blog.google/rss/".data]),
   ("amazon".data, ["https://press.aboutamazon.com/rss/news-releases.xml".data])]

/-- Replace the binding of `k` in an association list. -/
def updateAssoc (m : List (Str × List Str)) (k : Str) (v : List Str) :
    List (Str × List Str) :=
  m.map fun p => if p.1 = k then (k, v) else p

/-- The feed-list manipulation of `RSSCrawler.fetch` (lines 105–109 of
`crawlers.py`) with the shared `config.crawler.rss_feeds` dict passed as
explicit state: `feeds = self.rss_feeds.get(company.lower(), [])` aliases
the stored list when the key is present, so `feeds.append(...)` mutates the
configuration dict; when the key is absent the fresh default list is
mutated instead and the dict is unchanged.  Returns the feed list used and
the dict after the call. -/
def rss_fetch_feeds (m : List (Str × List Str)) (company : Str) :
    List Str × List (Str × List Str) :=
  let key := lowerStr company
  match m.lookup key with
  | some feeds =>
    let feeds2 := feeds ++ [google_news_rss company]
    (feeds2, updateAssoc m key feeds2)
  | none => ([google_news_rss company], m)

/-! ### Concrete items used by witnesses and counterexamples -/

/-- First item of the C2 counterexample: repeated tokens in the title. -/
def cItemA : Item := { title := "x x x y".data, url := "http://u1".data }

/-- Second item of the C2 counterexample. -/
def cItemB : Item := { title := "x y".data, url := "http://u2".data }

/-- C3 counterexample: url differing from `uItemB` only in casing. -/
def uItemA : Item := { title := "alpha beta".data, url := "HTTP://Example.com/A".data }

/-- C3 counterexample: url differing from `uItemA` only in casing. -/
def uItemB : Item := { title := "gamma delta".data, url := "http://example.com/a".data }

/-- Empty-title item with a distinct url (C10). -/
def wsItemA : Item := { title := "".data, url := "http://w1".data }

/-- Whitespace-only-title item with a distinct url (C10). -/
def wsItemB : Item := { title := " ".data, url := "http://w2".data }

/-- Empty-title item (C10 counterexample), same url as `wsSameB`. -/
def wsSameA : Item := { title := "".data, url := "http://same".data }

/-- Whitespace-only-title item (C10 counterexample), same url as `wsSameA`. -/
def wsSameB : Item := { title := " ".data, url := "http://same".data }

/-- Older equal-score item for the C5 counterexample. -/
def eI1 : Item :=
  { title := "alpha beta gamma one".data, url := "http://a".data, source := "src".data,
    timestamp := "2020-01-01T00:00:00".data, impact_score := 9 }

/-- Newer equal-score item for the C5 counterexample. -/
def eI2 : Item :=
  { title := "delta epsilon zeta two".data, url := "http://b".data, source := "src".data,
    timestamp := "2024-01-01T00:00:00".data, impact_score := 9 }

/-- Item with impact score 8.0 (C8). -/
def tItem8 : Item :=
  { title := "major acquisition deal".data, url := "http://n8".data, impact_score := 8 }

/-- Item with impact score 3.0 (C8). -/
def tItem3 : Item :=
  { title := "routine meeting update".data, url := "http://n3".data, impact_score := 3 }

/-- Item with a parseable-looking timestamp for the C4 witness. -/
def tsItem : Item :=
  { title := "some news".data, url := "http://t".data,
    timestamp := "2024-01-01T12:00:00".data, impact_score := 7 }

/-! ## Helper lemmas -/

theorem keywordBonus_nonneg (text : Str) (kws : List Str) {inc : ℚ} (h : 0 ≤ inc) :
    0 ≤ keywordBonus text kws inc :=
  mul_nonneg (Nat.cast_nonneg _) h

theorem calculate_enhanced_impact_nonneg (title snippet query : Str) :
    0 ≤ calculate_enhanced_impact title snippet query := by
  simp only [calculate_enhanced_impact]
  refine le_min ?_ (by norm_num)
  have h1 : (0:ℚ) ≤ keywordBonus (lowerStr (title ++ [' '] ++ snippet)) critical_keywords 4 :=
    keywordBonus_nonneg _ _ (by norm_num)
  have h2 : (0:ℚ) ≤ keywordBonus (lowerStr (title ++ [' '] ++ snippet)) high_keywords (5/2) :=
    keywordBonus_nonneg _ _ (by norm_num)
  have h3 : (0:ℚ) ≤ keywordBonus (lowerStr (title ++ [' '] ++ snippet)) medium_keywords (3/2) :=
    keywordBonus_nonneg _ _ (by norm_num)
  have h4 : (0:ℚ) ≤ keywordBonus (lowerStr (title ++ [' '] ++ snippet)) low_keywords (1/2) :=
    keywordBonus_nonneg _ _ (by norm_num)
  split_ifs <;> linarith

theorem calculate_enhanced_impact_le_ten (title snippet query : Str) :
    calculate_enhanced_impact title snippet query ≤ 10 := by
  simp only [calculate_enhanced_impact]
  exact min_le_right _ _

/-! ## Claim theorems -/

/-- C1: the impact scorer applied at ingestion is the deterministic additive
keyword-bucket function described by the spec — base 5.0, +4.0 / +2.5 /
+1.5 / +0.5 per matched critical / high / medium / low keyword
(case-insensitive substring search over title+snippet), +1.0 when the query
context contains `today` or `latest`, −0.5 when the snippet is shorter than
50 characters, with the result clamped to `[0, 10]` (the code only caps at
10, but the pre-clamp sum is always at least 4.5, so the two agree). -/
theorem impact_scorer_matches_spec (title snippet query : Str) :
    calculate_enhanced_impact title snippet query = impact_score_spec title snippet query := by
  have h := calculate_enhanced_impact_nonneg title snippet query
  simp only [calculate_enhanced_impact] at h
  simp only [calculate_enhanced_impact, impact_score_spec]
  exact (max_eq_right h).symm

theorem anySimilar_false_all : ∀ (seen : List Str) (title : Str),
    anySimilar title seen = some false →
    ∀ t ∈ seen, ∀ q, similarity title t = some q → q ≤ 7/10 := by
  intro seen
  induction seen with
  | nil => intro title _ t ht; exact absurd ht (List.not_mem_nil _)
  | cons s rest ih =>
    intro title h t ht q hq
    simp only [anySimilar] at h
    split at h
    · exact absurd h (by simp)
    · rename_i q0 hsim
      by_cases h7 : 7/10 < q0
      · rw [if_pos h7] at h; exact absurd h (by simp)
      · rw [if_neg h7] at h
        rcases List.mem_cons.mp ht with rfl | ht2
        · rw [hsim] at hq
          exact Option.some.inj hq ▸ le_of_not_lt h7
        · exact ih title h t ht2 q hq

theorem advDedupGo_spec : ∀ (l : List Item) (urls titles : List Str) (out : List Item),
    advDedupGo urls titles l = some out →
    out.Sublist l ∧
    (∀ b ∈ out, ∀ t ∈ titles, ∀ q, similarity (normTitle b.title) t = some q → q ≤ 7/10) ∧
    (∀ b ∈ out, b.url ∉ urls) ∧
    out.Pairwise (fun a b =>
      (∀ q, similarity (normTitle b.title) (normTitle a.title) = some q → q ≤ 7/10) ∧
      a.url ≠ b.url) := by
  intro l
  induction l with
  | nil =>
    intro urls titles out h
    simp only [advDedupGo, Option.some.injEq] at h
    subst h
    exact ⟨List.nil_sublist _, by simp, by simp, List.Pairwise.nil⟩
  | cons r rest ih =>
    intro urls titles out h
    simp only [advDedupGo] at h
    by_cases hurl : r.url ∈ urls
    · rw [if_pos hurl] at h
      obtain ⟨hsub, htit, hurls, hpair⟩ := ih urls titles out h
      exact ⟨hsub.cons _, htit, hurls, hpair⟩
    · rw [if_neg hurl] at h
      split at h
      · exact absurd h (by simp)
      · rename_i hsim
        obtain ⟨hsub, htit, hurls, hpair⟩ := ih urls titles out h
        exact ⟨hsub.cons _, htit, hurls, hpair⟩
      · rename_i hsim
        cases hrec : advDedupGo (r.url :: urls) (normTitle r.title :: titles) rest with
        | none => rw [hrec] at h; exact absurd h (by simp)
        | some out2 =>
          rw [hrec] at h
          simp only [Option.map_some', Option.some.injEq] at h
          subst h
          obtain ⟨hsub, htit, hurls, hpair⟩ := ih _ _ _ hrec
          refine ⟨hsub.cons₂ _, ?_, ?_, ?_⟩
          · intro b hb t ht q hq
            rcases List.mem_cons.mp hb with rfl | hb2
            · exact anySimilar_false_all titles (normTitle b.title) hsim t ht q hq
            · exact htit b hb2 t (List.mem_cons_of_mem _ ht) q hq
          · intro b hb
            rcases List.mem_cons.mp hb with rfl | hb2
            · exact hurl
            · exact fun hmem => (hurls b hb2) (List.mem_cons_of_mem _ hmem)
          · refine List.pairwise_cons.mpr ⟨?_, hpair⟩
            intro b hb
            refine ⟨fun q hq => htit b hb (normTitle r.title) (List.mem_cons_self _ _) q hq, ?_⟩
            intro hEq
            exact (hurls b hb) (hEq ▸ List.mem_cons_self r.url urls)

theorem advanced_deduplication_headq : ∀ (l out : List Item),
    advanced_deduplication l = some out → out.head? = l.head? := by
  intro l out h
  cases l with
  | nil =>
    simp only [advanced_deduplication, advDedupGo, Option.some.injEq] at h
    subst h; rfl
  | cons a rest =>
    simp only [advanced_deduplication, advDedupGo] at h
    rw [if_neg (List.not_mem_nil _)] at h
    simp only [anySimilar] at h
    cases hrec : advDedupGo [a.url] [normTitle a.title] rest with
    | none => rw [hrec] at h; exact absurd h (by simp)
    | some out2 =>
      rw [hrec] at h
      simp only [Option.map_some', Option.some.injEq] at h
      subst h; rfl

/-- C2 (amended): when the advanced deduplicator returns (it can instead
raise, see C10), it returns a subsequence of its input in which no later
item's title has similarity above 0.7 to any earlier accepted item's title,
and the first input item always survives (first-seen wins).  The code's
similarity divides the token-set intersection size by the larger of the two
token *list* lengths (repetitions counted), not by the larger token-set
size as the spec words it (refuted by `dedup_setsize_similarity_refuted`). -/
theorem dedup_drops_similar_titles (l out : List Item)
    (h : advanced_deduplication l = some out) :
    out.Sublist l ∧
    out.Pairwise (fun a b =>
      ∀ q, similarity (normTitle b.title) (normTitle a.title) = some q → q ≤ 7/10) ∧
    out.head? = l.head? := by
  obtain ⟨hsub, _, _, hpair⟩ := advDedupGo_spec l [] [] out h
  exact ⟨hsub, hpair.imp fun hab => hab.1, advanced_deduplication_headq l out h⟩

unseal Rat.mul Rat.inv in
theorem dedup_drops_similar_titles_witness :
    ([cItemA, cItemB] : List Item).Sublist [cItemA, cItemB] ∧
    ([cItemA, cItemB] : List Item).Pairwise (fun a b =>
      ∀ q, similarity (normTitle b.title) (normTitle a.title) = some q → q ≤ 7/10) ∧
    ([cItemA, cItemB] : List Item).head? = ([cItemA, cItemB] : List Item).head? :=
  dedup_drops_similar_titles [cItemA, cItemB] [cItemA, cItemB] (by decide)

unseal Rat.mul Rat.inv in
theorem dedup_setsize_similarity_refuted :
    advanced_deduplication [cItemA, cItemB] = some [cItemA, cItemB] ∧
    similarity_spec (normTitle cItemB.title) (normTitle cItemA.title) = some 1 ∧
    ¬ ((1 : ℚ) ≤ 7/10) := by decide

/-- C3 (amended): URL deduplication is keyed by the *exact* url string
(case-sensitive, no normalization): the deduplicated result never contains
two items with identical urls and preserves input order, so for items with
identical urls the first one accepted wins; but two items whose urls differ
only in casing are both retained (refuted case: `dedup_url_casefold_refuted`). -/
theorem dedup_url_exact_first_seen (l out : List Item)
    (h : advanced_deduplication l = some out) :
    out.Sublist l ∧
    out.Pairwise (fun a b => a.url ≠ b.url) ∧
    out.head? = l.head? := by
  obtain ⟨hsub, _, _, hpair⟩ := advDedupGo_spec l [] [] out h
  exact ⟨hsub, hpair.imp fun hab => hab.2, advanced_deduplication_headq l out h⟩

unseal Rat.mul Rat.inv in
theorem dedup_url_exact_first_seen_witness :
    ([uItemA, uItemB] : List Item).Sublist [uItemA, uItemB] ∧
    ([uItemA, uItemB] : List Item).Pairwise (fun a b => a.url ≠ b.url) ∧
    ([uItemA, uItemB] : List Item).head? = ([uItemA, uItemB] : List Item).head? :=
  dedup_url_exact_first_seen [uItemA, uItemB] [uItemA, uItemB] (by decide)

unseal Rat.mul Rat.inv in
theorem dedup_url_casefold_refuted :
    advanced_deduplication [uItemA, uItemB] = some [uItemA, uItemB] ∧
    lowerStr uItemA.url = lowerStr uItemB.url ∧
    uItemA.url ≠ uItemB.url := by decide

theorem similarity_ne_none_left (t1 t2 : Str) (h : pySplit t1 ≠ []) :
    similarity t1 t2 ≠ none := by
  have hpos : 0 < (pySplit t1).length := List.length_pos.mpr h
  have hmax : max (pySplit t1).length (pySplit t2).length ≠ 0 :=
    Nat.pos_iff_ne_zero.mp (lt_of_lt_of_le hpos (le_max_left _ _))
  simp only [similarity]
  rw [if_neg hmax]
  simp

theorem similarity_ne_none_right (t1 t2 : Str) (h : pySplit t2 ≠ []) :
    similarity t1 t2 ≠ none := by
  have hpos : 0 < (pySplit t2).length := List.length_pos.mpr h
  have hmax : max (pySplit t1).length (pySplit t2).length ≠ 0 :=
    Nat.pos_iff_ne_zero.mp (lt_of_lt_of_le hpos (le_max_right _ _))
  simp only [similarity]
  rw [if_neg hmax]
  simp

theorem anySimilar_ne_none_of_title (title : Str) (h : pySplit title ≠ []) :
    ∀ seen, anySimilar title seen ≠ none := by
  intro seen
  induction seen with
  | nil => simp [anySimilar]
  | cons s rest ih =>
    simp only [anySimilar]
    split
    · rename_i hsim
      exact absurd hsim (similarity_ne_none_left _ _ h)
    · rename_i q hsim
      by_cases h7 : 7/10 < q
      · rw [if_pos h7]; simp
      · rw [if_neg h7]; exact ih

theorem anySimilar_ne_none_of_seen (title : Str) :
    ∀ seen, (∀ t ∈ seen, pySplit t ≠ []) → anySimilar title seen ≠ none := by
  intro seen
  induction seen with
  | nil => intro _; simp [anySimilar]
  | cons s rest ih =>
    intro hall
    simp only [anySimilar]
    split
    · rename_i hsim
      exact absurd hsim (similarity_ne_none_right _ _ (hall s (List.mem_cons_self _ _)))
    · rename_i q hsim
      by_cases h7 : 7/10 < q
      · rw [if_pos h7]; simp
      · rw [if_neg h7]
        exact ih fun t ht => hall t (List.mem_cons_of_mem _ ht)

theorem advDedupGo_total_clean : ∀ (l : List Item) (urls titles : List Str),
    (∀ r ∈ l, pySplit (normTitle r.title) ≠ []) →
    (advDedupGo urls titles l).isSome = true := by
  intro l
  induction l with
  | nil => intro urls titles _; simp [advDedupGo]
  | cons r rest ih =>
    intro urls titles hcl
    simp only [advDedupGo]
    by_cases hurl : r.url ∈ urls
    · rw [if_pos hurl]
      exact ih urls titles fun x hx => hcl x (List.mem_cons_of_mem _ hx)
    · rw [if_neg hurl]
      split
      · rename_i hsim
        exact absurd hsim
          (anySimilar_ne_none_of_title _ (hcl r (List.mem_cons_self _ _)) titles)
      · rename_i hsim
        exact ih urls titles fun x hx => hcl x (List.mem_cons_of_mem _ hx)
      · rename_i hsim
        have hrec := ih (r.url :: urls) (normTitle r.title :: titles)
          (fun x hx => hcl x (List.mem_cons_of_mem _ hx))
        cases ho : advDedupGo (r.url :: urls) (normTitle r.title :: titles) rest with
        | none => rw [ho] at hrec; exact absurd hrec (by simp)
        | some out2 => rfl

theorem advDedupGo_total_oneEmpty : ∀ (l : List Item) (urls titles : List Str),
    (∀ t ∈ titles, pySplit t ≠ []) →
    l.countP (fun r => (pySplit (normTitle r.title)).isEmpty) ≤ 1 →
    (advDedupGo urls titles l).isSome = true := by
  intro l
  induction l with
  | nil => intro urls titles _ _; simp [advDedupGo]
  | cons r rest ih =>
    intro urls titles htit hcount
    rw [List.countP_cons] at hcount
    simp only [advDedupGo]
    by_cases hurl : r.url ∈ urls
    · rw [if_pos hurl]
      exact ih urls titles htit (le_trans (Nat.le_add_right _ _) hcount)
    · rw [if_neg hurl]
      by_cases hre : pySplit (normTitle r.title) = []
      · have hp : (pySplit (normTitle r.title)).isEmpty = true := by rw [hre]; rfl
        simp only [hp, if_true] at hcount
        have hrest0 : rest.countP (fun r => (pySplit (normTitle r.title)).isEmpty) = 0 := by
          omega
        have hclean : ∀ x ∈ rest, pySplit (normTitle x.title) ≠ [] := by
          intro x hx hx2
          exact (List.countP_eq_zero.mp hrest0) x hx (by rw [hx2]; rfl)
        split
        · rename_i hsim
          exact absurd hsim (anySimilar_ne_none_of_seen _ titles htit)
        · rename_i hsim
          exact advDedupGo_total_clean rest urls titles hclean
        · rename_i hsim
          have hrec := advDedupGo_total_clean rest (r.url :: urls)
            (normTitle r.title :: titles) hclean
          cases ho : advDedupGo (r.url :: urls) (normTitle r.title :: titles) rest with
          | none => rw [ho] at hrec; exact absurd hrec (by simp)
          | some out2 => rfl
      · have hp : (pySplit (normTitle r.title)).isEmpty = false := by
          cases hx : pySplit (normTitle r.title) with
          | nil => exact absurd hx hre
          | cons a as => rfl
        simp only [hp, if_false] at hcount
        split
        · rename_i hsim
          exact absurd hsim (anySimilar_ne_none_of_title _ hre titles)
        · rename_i hsim
          exact ih urls titles htit (by omega)
        · rename_i hsim
          have htit2 : ∀ t ∈ normTitle r.title :: titles, pySplit t ≠ [] := by
            intro t ht
            rcases List.mem_cons.mp ht with rfl | ht2
            · exact hre
            · exact htit t ht2
          have hrec := ih (r.url :: urls) (normTitle r.title :: titles) htit2 (by omega)
          cases ho : advDedupGo (r.url :: urls) (normTitle r.title :: titles) rest with
          | none => rw [ho] at hrec; exact absurd hrec (by simp)
          | some out2 => rfl

/-- C10 (amended): the advanced deduplicator is total whenever at most one
input item's normalized title tokenizes to zero words.  With two such items
a `ZeroDivisionError` (`max(0, 0) = 0` denominator) is possible but not
guaranteed: it occurs when the first empty-token item is accepted and a
later empty-token item reaches the similarity check (e.g. the two items of
`wsItemA, wsItemB`, with distinct urls), while URL deduplication can skip
the comparison entirely (refuted case: `dedup_two_empty_titles_can_return`). -/
theorem dedup_totality_precondition :
    (∀ l : List Item,
      l.countP (fun r => (pySplit (normTitle r.title)).isEmpty) ≤ 1 →
      (advanced_deduplication l).isSome = true) ∧
    advanced_deduplication [wsItemA, wsItemB] = none := by
  constructor
  · intro l h
    exact advDedupGo_total_oneEmpty l [] []
      (fun t ht => absurd ht (List.not_mem_nil _)) h
  · decide

theorem dedup_totality_precondition_witness :
    ([cItemA, wsItemA] : List Item).countP
      (fun r => (pySplit (normTitle r.title)).isEmpty) ≤ 1 ∧
    (advanced_deduplication [cItemA, wsItemA]).isSome = true :=
  ⟨by decide, dedup_totality_precondition.1 [cItemA, wsItemA] (by decide)⟩

theorem dedup_two_empty_titles_can_return :
    advanced_deduplication [wsSameA, wsSameB] = some [wsSameA] := by decide

theorem isEmpty_true_iff {α : Type} (s : List α) : s.isEmpty = true ↔ s = [] := by
  cases s <;> simp

theorem keepTime_iff (parse : Str → Option Int) (now cutoff : Int)
    (h : cutoff ≤ now) (r : Item) :
    ((if r.timestamp.isEmpty then true
      else
        match parse (isoFix r.timestamp) with
        | some t => decide (cutoff ≤ t)
        | none => decide (cutoff ≤ now)) = true) ↔
    (r.timestamp = [] ∨ parse (isoFix r.timestamp) = none ∨
      ∃ t, parse (isoFix r.timestamp) = some t ∧ cutoff ≤ t) := by
  by_cases hts : r.timestamp.isEmpty
  · rw [if_pos hts]
    rw [isEmpty_true_iff] at hts
    simp [hts]
  · rw [if_neg hts]
    have hts2 : r.timestamp ≠ [] := fun hx => hts ((isEmpty_true_iff _).mpr hx)
    cases hp : parse (isoFix r.timestamp) with
    | none => simp [h, hts2]
    | some t0 => simp [hts2]

/-- C4 (amended): the time filter retains exactly the items whose timestamp
is absent, unparseable, or at least the cutoff (so an item timestamped
exactly at the cutoff is retained), provided `cutoff ≤ now`, which holds
whenever the window is nonnegative; the basic pipeline maps `1 hour` /
`6 hours` / `24 hours` to 1/6/24 hours and defaults everything else —
including `1 week`, contrary to the claim (see
`basic_pipeline_one_week_refuted`) — to 24, while only the enterprise
variant maps `1 week` to 168. -/
theorem time_filter_characterization (parse : Str → Option Int) (now cutoff : Int)
    (h : cutoff ≤ now) (l : List Item) (r : Item) :
    (r ∈ filter_by_time parse now cutoff l ↔
      r ∈ l ∧ (r.timestamp = [] ∨ parse (isoFix r.timestamp) = none ∨
        ∃ t, parse (isoFix r.timestamp) = some t ∧ cutoff ≤ t)) ∧
    basic_hours "1 hour".data = 1 ∧
    basic_hours "6 hours".data = 6 ∧
    basic_hours "24 hours".data = 24 ∧
    basic_hours "1 week".data = 24 ∧
    enterprise_hours "1 week".data = 168 ∧
    (∀ s : Str, s ≠ "1 hour".data → s ≠ "6 hours".data → s ≠ "24 hours".data →
      basic_hours s = 24) := by
  refine ⟨?_, by decide, by decide, by decide, by decide, by decide, ?_⟩
  · rw [filter_by_time, List.mem_filter]
    exact and_congr_right fun _ => keepTime_iff parse now cutoff h r
  · intro s h1 h2 h3
    have b1 : (s == "1 hour".data) = false := beq_eq_false_iff_ne.mpr h1
    have b2 : (s == "6 hours".data) = false := beq_eq_false_iff_ne.mpr h2
    have b3 : (s == "24 hours".data) = false := beq_eq_false_iff_ne.mpr h3
    simp [basic_hours, pyGetNat, basic_time_mapping, List.lookup, b1, b2, b3]

theorem time_filter_characterization_witness :
    ((tsItem ∈ filter_by_time (fun _ => none) 0 0 [tsItem]) ↔
      tsItem ∈ [tsItem] ∧ (tsItem.timestamp = [] ∨ (none : Option Int) = none ∨
        ∃ t, (none : Option Int) = some t ∧ (0:Int) ≤ t)) ∧
    basic_hours "1 hour".data = 1 ∧
    basic_hours "6 hours".data = 6 ∧
    basic_hours "24 hours".data = 24 ∧
    basic_hours "1 week".data = 24 ∧
    enterprise_hours "1 week".data = 168 ∧
    (∀ s : Str, s ≠ "1 hour".data → s ≠ "6 hours".data → s ≠ "24 hours".data →
      basic_hours s = 24) :=
  time_filter_characterization (fun _ => none) 0 0 (by decide) [tsItem] tsItem

theorem basic_pipeline_one_week_refuted :
    basic_hours "1 week".data = 24 ∧ (24 : Nat) ≠ 168 := by decide

theorem strLe_total : ∀ s t : Str, strLe s t = true ∨ strLe t s = true := by
  intro s
  induction s with
  | nil => intro t; exact Or.inl rfl
  | cons a as ih =>
    intro t
    cases t with
    | nil => exact Or.inr rfl
    | cons b bs =>
      simp only [strLe]
      rcases lt_trichotomy a b with hab | hab | hab
      · left; rw [if_pos hab]
      · subst hab
        simp only [lt_irrefl, if_false]
        exact ih bs
      · right; rw [if_pos hab]

theorem strLe_trans : ∀ s t u : Str,
    strLe s t = true → strLe t u = true → strLe s u = true := by
  intro s
  induction s with
  | nil => intro t u _ _; rfl
  | cons a as ih =>
    intro t u h1 h2
    cases t with
    | nil => exact absurd h1 (by simp [strLe])
    | cons b bs =>
      cases u with
      | nil => exact absurd h2 (by simp [strLe])
      | cons c cs =>
        simp only [strLe] at h1 h2 ⊢
        by_cases hab : a < b
        · by_cases hbc : b < c
          · simp [lt_trans hab hbc]
          · by_cases hcb : c < b
            · simp [hbc, hcb] at h2
            · have hbc2 : b = c := le_antisymm (not_lt.mp hcb) (not_lt.mp hbc)
              subst hbc2
              simp [hab]
        · by_cases hba : b < a
          · simp [hab, hba] at h1
          · have hab2 : a = b := le_antisymm (not_lt.mp hba) (not_lt.mp hab)
            subst hab2
            simp only [lt_irrefl, if_false] at h1
            by_cases hac : a < c
            · simp [hac]
            · by_cases hca : c < a
              · simp [hac, hca] at h2
              · have hac2 : a = c := le_antisymm (not_lt.mp hca) (not_lt.mp hac)
                subst hac2
                simp only [lt_irrefl, if_false] at h2 ⊢
                exact ih bs cs h1 h2

theorem basicKeyLe_trans : ∀ a b c : Item,
    basicKeyLe a b = true → basicKeyLe b c = true → basicKeyLe a c = true := by
  intro a b c h1 h2
  simp only [basicKeyLe, Bool.or_eq_true, Bool.and_eq_true, decide_eq_true_eq] at h1 h2 ⊢
  rcases h1 with h1 | ⟨h1e, h1s⟩
  · rcases h2 with h2 | ⟨h2e, h2s⟩
    · exact Or.inl (lt_trans h2 h1)
    · exact Or.inl (lt_of_le_of_lt (le_of_eq h2e) h1)
  · rcases h2 with h2 | ⟨h2e, h2s⟩
    · exact Or.inl (lt_of_lt_of_le h2 (le_of_eq h1e))
    · exact Or.inr ⟨h2e.trans h1e, strLe_trans _ _ _ h2s h1s⟩

theorem basicKeyLe_total : ∀ a b : Item, (basicKeyLe a b || basicKeyLe b a) = true := by
  intro a b
  simp only [basicKeyLe, Bool.or_eq_true, Bool.and_eq_true, decide_eq_true_eq]
  rcases lt_trichotomy a.impact_score b.impact_score with h | h | h
  · exact Or.inr (Or.inl h)
  · rcases strLe_total a.timestamp b.timestamp with hs | hs
    · exact Or.inr (Or.inr ⟨h, hs⟩)
    · exact Or.inl (Or.inr ⟨h.symm, hs⟩)
  · exact Or.inl (Or.inl h)

theorem entKeyLe_trans : ∀ a b c : Item,
    entKeyLe a b = true → entKeyLe b c = true → entKeyLe a c = true := by
  intro a b c h1 h2
  simp only [entKeyLe, decide_eq_true_eq] at h1 h2 ⊢
  exact le_trans h2 h1

theorem entKeyLe_total : ∀ a b : Item, (entKeyLe a b || entKeyLe b a) = true := by
  intro a b
  simp only [entKeyLe, Bool.or_eq_true, decide_eq_true_eq]
  exact le_total b.impact_score a.impact_score

theorem mem_take_mergeSort {le : Item → Item → Bool} {x : Item} {l : List Item}
    {n : Nat} (h : x ∈ (l.mergeSort le).take n) : x ∈ l :=
  ((l.mergeSort_perm le).mem_iff).mp (List.Sublist.mem h (List.take_sublist _ _))

theorem basicDedupGo_sublist : ∀ (l : List Item) (urls titles : List Str),
    (basicDedupGo urls titles l).Sublist l := by
  intro l
  induction l with
  | nil => intro urls titles; simp [basicDedupGo]
  | cons r rest ih =>
    intro urls titles
    simp only [basicDedupGo]
    split
    · exact (ih _ _).cons₂ _
    · exact (ih _ _).cons _

/-- C5 (amended): the basic pipeline result is sorted descending by the
pair (impact score, timestamp-string) — so among equal scores the
lexicographically larger, i.e. more recent, ISO timestamp comes first — and
holds at most 10 items; the enterprise variant holds at most 12 items but
sorts by impact score alone with no timestamp tiebreak (refuted tiebreak:
`enterprise_sort_no_timestamp_tiebreak`). -/
theorem ranking_sorted_truncated :
    (∀ (parse : Str → Option Int) (now : Int) (hours : Nat)
      (rs : List (Except Str (List Item))),
      (fetch_all_news parse now hours rs).length ≤ 10 ∧
      (fetch_all_news parse now hours rs).Pairwise (fun a b => basicKeyLe a b = true)) ∧
    (∀ (parse : Str → Option Int) (now : Int) (tr : Str) (thr : ℚ)
      (items : List Item),
      (enterprise_filter_news parse now tr thr items).length ≤ 12 ∧
      (enterprise_filter_news parse now tr thr items).Pairwise
        (fun a b => entKeyLe a b = true)) := by
  constructor
  · intro parse now hours rs
    constructor
    · simp only [fetch_all_news]
      rw [List.length_take]
      exact min_le_left _ _
    · simp only [fetch_all_news]
      exact List.Pairwise.sublist (List.take_sublist _ _)
        (List.sorted_mergeSort basicKeyLe_trans basicKeyLe_total _)
  · intro parse now tr thr items
    constructor
    · simp only [enterprise_filter_news]
      rw [List.length_take]
      exact min_le_left _ _
    · simp only [enterprise_filter_news]
      exact List.Pairwise.sublist (List.take_sublist _ _)
        (List.sorted_mergeSort entKeyLe_trans entKeyLe_total _)

unseal Rat.mul Rat.inv Rat.add Rat.sub List.merge List.mergeSort in
theorem enterprise_sort_no_timestamp_tiebreak :
    enterprise_filter_news (fun _ => none) 0 "24 hours".data 0 [eI1, eI2] = [eI1, eI2] ∧
    eI1.impact_score = eI2.impact_score ∧
    strLe eI2.timestamp eI1.timestamp = false ∧
    basicKeyLe eI1 eI2 = false := by decide

/-- C6: when one registered adapter fails (its gathered outcome is an
exception) and the other returns items, the aggregator returns a ranked
subset of the successful adapter's items — it is a total function of the
gathered outcomes, never an exception — and the generic search adapter's
fetch returns the empty list on a transport error instead of throwing. -/
theorem aggregate_adapter_failure (parse : Str → Option Int) (now : Int)
    (hours : Nat) (e : Str) (items : List Item) :
    fetch_all_news parse now hours [Except.error e, Except.ok items] ⊆ items ∧
    ddg_fetch (Except.error e) = [] := by
  constructor
  · intro x hx
    simp only [fetch_all_news] at hx
    have hx2 := mem_take_mergeSort hx
    rw [filter_by_time] at hx2
    have hx3 := List.mem_of_mem_filter hx2
    rw [deduplicate_basic] at hx3
    have hx4 := List.Sublist.mem hx3 (basicDedupGo_sublist _ [] [])
    have hx5 : collectResults [Except.error e, Except.ok items] = items := rfl
    rw [hx5] at hx4
    exact hx4
  · rfl

theorem aggregate_adapter_failure_witness :
    fetch_all_news (fun _ => none) 0 24 [Except.error "x".data, Except.ok [tsItem]]
      ⊆ [tsItem] ∧
    ddg_fetch (Except.error "x".data) = ([] : List Item) :=
  aggregate_adapter_failure (fun _ => none) 0 24 "x".data [tsItem]

theorem applyBoosts_bounds (parse : Str → Option Int) (now : Int) (item : Item)
    (h0 : 0 ≤ item.impact_score) (h10 : item.impact_score ≤ 10) :
    0 ≤ (applyBoosts parse now item).impact_score ∧
    (applyBoosts parse now item).impact_score ≤ 10 := by
  simp only [applyBoosts]
  have hS1 : 0 ≤ (if trusted_sources.any (fun t => containsSub (lowerStr item.source) t)
      then min (item.impact_score + 1) 10 else item.impact_score) ∧
      (if trusted_sources.any (fun t => containsSub (lowerStr item.source) t)
      then min (item.impact_score + 1) 10 else item.impact_score) ≤ 10 := by
    split
    · exact ⟨le_min (by linarith) (by norm_num), min_le_right _ _⟩
    · exact ⟨h0, h10⟩
  constructor
  · split
    · split
      · exact le_min (by linarith [hS1.1]) (by norm_num)
      · exact hS1.1
    · exact hS1.1
  · split
    · split
      · exact min_le_right _ _
      · exact hS1.2
    · exact hS1.2

/-- C7: impact scores stay within [0, 10]: the ingestion scorer always
returns a value in [0, 10], and the enterprise ranking boosts (+1.0 for a
trusted source matched case-insensitively as a substring, +0.5 for a
parseable timestamp under one hour old) are clamped, so every item of the
enterprise filter output has a score in [0, 10] whenever the input items
do. -/
theorem impact_score_bounds :
    (∀ title snippet query : Str,
      0 ≤ calculate_enhanced_impact title snippet query ∧
      calculate_enhanced_impact title snippet query ≤ 10) ∧
    (∀ (parse : Str → Option Int) (now : Int) (tr : Str) (thr : ℚ)
      (items : List Item),
      (∀ i ∈ items, 0 ≤ i.impact_score ∧ i.impact_score ≤ 10) →
      ∀ o ∈ enterprise_filter_news parse now tr thr items,
        0 ≤ o.impact_score ∧ o.impact_score ≤ 10) := by
  constructor
  · intro t s q
    exact ⟨calculate_enhanced_impact_nonneg t s q, calculate_enhanced_impact_le_ten t s q⟩
  · intro parse now tr thr items hin o ho
    simp only [enterprise_filter_news] at ho
    have ho2 := mem_take_mergeSort ho
    rcases List.mem_map.mp ho2 with ⟨i, hi, rfl⟩
    have hi2 : i ∈ items := List.mem_of_mem_filter hi
    exact applyBoosts_bounds parse now i (hin i hi2).1 (hin i hi2).2

unseal Rat.mul Rat.inv Rat.add Rat.sub List.merge List.mergeSort in
theorem impact_score_bounds_witness :
    0 ≤ eI1.impact_score ∧ eI1.impact_score ≤ 10 :=
  impact_score_bounds.2 (fun _ => none) 0 "24 hours".data 0 [eI1]
    (by decide) eI1 (by decide)

/-- C8: with fetched items present but none at or above the impact
threshold, the basic pipeline returns the below-threshold outcome, which is
distinct from the no-results outcome (both ordinary return values, not
exceptions); and for items scored 8.0 and 3.0 with threshold 5.0 exactly
the 8.0 item survives the threshold filter. -/
theorem below_threshold_distinct_outcome :
    (∀ (items : List Item) (thr : ℚ), items ≠ [] →
      items.filter (fun i => decide (thr ≤ i.impact_score)) = [] →
      process_news_query items thr = QueryOutcome.belowThreshold items.length ∧
      QueryOutcome.belowThreshold items.length ≠ QueryOutcome.noResults) ∧
    process_news_query [tItem8, tItem3] 5 = QueryOutcome.summaryOf [tItem8] := by
  constructor
  · intro items thr hne hfe
    constructor
    · simp only [process_news_query]
      rw [if_neg fun hx => hne ((isEmpty_true_iff items).mp hx)]
      rw [if_pos ((isEmpty_true_iff _).mpr hfe)]
    · intro hx
      exact QueryOutcome.noConfusion hx
  · decide

theorem below_threshold_distinct_outcome_witness :
    process_news_query [tItem3] 5 = QueryOutcome.belowThreshold ([tItem3] : List Item).length ∧
    QueryOutcome.belowThreshold ([tItem3] : List Item).length ≠ QueryOutcome.noResults :=
  below_threshold_distinct_outcome.1 [tItem3] 5 (by decide) (by decide)

/-- C9 (code bug): `RSSCrawler.fetch` does mutate shared configuration
state: `feeds = self.rss_feeds.get(company.lower(), [])` aliases the list
stored in `config.crawler.rss_feeds`, and the subsequent
`feeds.append(<google news rss url>)` therefore changes the configured feed
list for every company present in the dict (here `Apple`), contradicting
the spec's statement that an aggregation request mutates no shared state
outside the per-session cache. -/
theorem rss_fetch_mutates_feed_config :
    (rss_fetch_feeds default_rss_feeds "Apple".data).2 ≠ default_rss_feeds ∧
    (rss_fetch_feeds default_rss_feeds "Apple".data).2.lookup "apple".data =
      some ["https://www.apple.com/newsroom/rss-feed.rss".data,
            google_news_rss "Apple".data] := by decide
